import Mathlib

/-!
Verification of the PR-dashboard repository's scoring and aggregation
pipeline, shallowly embedded in Lean 4.

Sources modelled:
- `src/app.py`: `GitLabClient.get_merge_requests`, `calculate_days_past`,
  `calculate_score` (the dashboard's score, "Variant A"), and the row
  assembly of the `data` stage (title truncation, assignee join, state tag).
- `src/score.py`: the standalone `calculate_score` ("Variant B").
- `src/gitlab_client.py`: `GitLabClient.get_merge_requests` (identical loop
  to app.py's) and the static helper `GitLabClient.days_since`.

Conventions of the embedding:
- Python floats are modelled as exact rationals (`ℚ`); the decimal literals
  `1.05` and `0.1` become `21/20` and `1/10`.
- Python `int(x)` truncates toward zero: `pyTrunc`.
- Python `round(x, 4)` rounds half to even at four decimals: `pyRound4`.
- `datetime` instants are integers counting seconds (timezone-naive after
  the source's `.replace(tzinfo=None)`); `timedelta.days` floors the
  difference toward negative infinity, i.e. `Int.fdiv _ 86400`.
- Python strings are `String`; a ScoreRow title is handled at the level of
  its character list, where slicing lengths matter.
-/

-- ## Definitions

/-- Python `int(x)` applied to a rational: truncation toward zero. -/
def pyTrunc (q : ℚ) : ℤ :=
  if 0 ≤ q then ⌊q⌋ else -⌊-q⌋

/-- Round a rational to the nearest integer, ties to the even integer:
the rounding mode of Python's builtin `round`. -/
def roundHalfEven (q : ℚ) : ℤ :=
  if q - ⌊q⌋ < 1/2 then ⌊q⌋
  else if 1/2 < q - ⌊q⌋ then ⌊q⌋ + 1
  else if ⌊q⌋ % 2 = 0 then ⌊q⌋ else ⌊q⌋ + 1

/-- Python `round(x, 4)`: round half to even at the fourth decimal. -/
def pyRound4 (q : ℚ) : ℚ :=
  (roundHalfEven (q * 10000) : ℚ) / 10000

/-- A merge request as consumed by `calculate_days_past` and the row
assembly of `src/app.py`: parsed timestamps are timezone-naive instants in
seconds, an `Option` models a missing / null / falsy timestamp field, and
`assignees` keeps each assignee's `name`. -/
structure MergeRequest where
  created_at : ℤ
  state : String
  merged_at : Option ℤ
  closed_at : Option ℤ
  title : List Char
  assignees : List String

namespace App

/-- From `src/app.py`, `calculate_score`: the clamp
`if days_past < 1: days_past = 1`. -/
def days_eff (days : ℚ) : ℚ :=
  if days < 1 then 1 else days

/-- From `src/app.py`, `calculate_score`: `lines_changed_for_denominator`,
`1.05` when `lines_changed == 1`, otherwise the initial `0`. -/
def lines_denom (lines : ℚ) : ℚ :=
  if lines = 1 then 21/20 else 0

/-- From `src/app.py`, `calculate_score`: the `numerator` local,
`days_past * days_threshold + lines_changed * lines_changed_threshold`
after the days clamp. -/
def numerator (dt lt days lines : ℚ) : ℚ :=
  days_eff days * dt + lines * lt

/-- From `src/app.py`, `calculate_score`: the `denominator` local,
`days_past * days_threshold * lines_changed_for_denominator
 + (comments * comment_threshold + 1)` after the days clamp. -/
def denominator (dt ct days lines comments : ℚ) : ℚ :=
  days_eff days * dt * lines_denom lines + (comments * ct + 1)

/-- From `src/app.py`, `calculate_score` (Variant A): thresholds `dt`, `lt`,
`ct` are the config values `days_threshold`, `lines_changed_threshold`,
`comment_threshold`. Returns `0` on a zero denominator, otherwise
`int(numerator / denominator * 100)`. -/
def calculate_score (dt lt ct days lines comments : ℚ) : ℤ :=
  if denominator dt ct days lines comments = 0 then 0
  else pyTrunc (numerator dt lt days lines / denominator dt ct days lines comments * 100)

/-- From `src/app.py`, `calculate_days_past`: the end bound is the current
time for an `opened` merge request, else the merge timestamp when present,
else the close timestamp when present, else the current time; the result is
`max((end - created).days, 0)`, where `timedelta.days` floors. -/
def calculate_days_past (mr : MergeRequest) (now : ℤ) : ℤ :=
  let endT : ℤ :=
    if mr.state = "opened" then now
    else match mr.merged_at with
      | some m => m
      | none => match mr.closed_at with
        | some c => c
        | none => now
  max (Int.fdiv (endT - mr.created_at) 86400) 0

/-- From `src/app.py`, `data` stage:
`title[:40] + "..." if len(title) > 40 else title`. -/
def truncateTitle (title : List Char) : List Char :=
  if title.length > 40 then title.take 40 ++ ['.', '.', '.'] else title

/-- From `src/app.py`, `data` stage:
`", ".join(a["name"] for a in mr.get("assignees", []))`. -/
def joinedNames (names : List String) : String :=
  String.intercalate ", " names

/-- From `src/app.py`, `data` stage: the `Assignee` column,
`", ".join(...) or "-"` — the joined string unless it is falsy (empty). -/
def assigneeField (names : List String) : String :=
  if joinedNames names = "" then "-" else joinedNames names

/-- From `src/app.py`, `data` stage: the `State` column,
`"Assigned" if mr.get("assignees") else "Unassigned"` — tests only list
non-emptiness. -/
def stateField (names : List String) : String :=
  if names = [] then "Unassigned" else "Assigned"

end App

namespace Score

/-- From `src/score.py`, `calculate_score`: the `numerator` local. -/
def numerator (dt lt days lines : ℚ) : ℚ :=
  days * dt + lines * lt

/-- From `src/score.py`, `calculate_score`: the `denominator` local,
`numerator + (comments / comment_threshold * 0.1 + 1)`. -/
def denominator (dt lt ct days lines comments : ℚ) : ℚ :=
  numerator dt lt days lines + (comments / ct * (1/10) + 1)

/-- From `src/score.py`, `calculate_score` (Variant B):
`round(numerator / denominator, 4)` with no zero-denominator guard. -/
def calculate_score (dt lt ct days lines comments : ℚ) : ℚ :=
  pyRound4 (numerator dt lt days lines / denominator dt lt ct days lines comments)

end Score

namespace GitLab

/-- From `GitLabClient.get_merge_requests` (identical in `src/app.py` and
`src/gitlab_client.py`): starts from `mrs = []` and, for each requested
state in order, extends with the result of the underlying per-state list
call `fetch`. -/
def get_merge_requests {α : Type} (fetch : String → List α) (states : List String) : List α :=
  states.foldl (fun acc s => acc ++ fetch s) []

/-- From `src/gitlab_client.py`, `GitLabClient.days_since`:
`(datetime.utcnow() - created).days`, with no floor at zero. -/
def days_since (created now : ℤ) : ℤ :=
  Int.fdiv (now - created) 86400

end GitLab

-- ## Helper lemmas about the Python-arithmetic helpers

theorem pyTrunc_of_nonneg {q : ℚ} (h : 0 ≤ q) : pyTrunc q = ⌊q⌋ := by
  simp [pyTrunc, h]

theorem pyTrunc_mono {x y : ℚ} (hx : 0 ≤ x) (hxy : x ≤ y) :
    pyTrunc x ≤ pyTrunc y := by
  rw [pyTrunc_of_nonneg hx, pyTrunc_of_nonneg (hx.trans hxy)]
  exact Int.floor_le_floor hxy

theorem roundHalfEven_le (q : ℚ) : (roundHalfEven q : ℚ) ≤ q + 1/2 := by
  have hf := Int.floor_le q
  have hc := Int.lt_floor_add_one q
  unfold roundHalfEven
  split_ifs <;> push_cast <;> linarith

theorem le_roundHalfEven (q : ℚ) : q - 1/2 ≤ (roundHalfEven q : ℚ) := by
  have hf := Int.floor_le q
  have hc := Int.lt_floor_add_one q
  unfold roundHalfEven
  split_ifs <;> push_cast <;> linarith

theorem roundHalfEven_mono {x y : ℚ} (h : x ≤ y) :
    roundHalfEven x ≤ roundHalfEven y := by
  by_contra hcon
  push_neg at hcon
  have h1 : roundHalfEven y + 1 ≤ roundHalfEven x := hcon
  have h1q : ((roundHalfEven y : ℚ) + 1) ≤ (roundHalfEven x : ℚ) := by
    exact_mod_cast h1
  have hx := roundHalfEven_le x
  have hy := le_roundHalfEven y
  have hyx : y ≤ x := by linarith
  have heq : x = y := le_antisymm h hyx
  subst heq
  omega

theorem pyRound4_mono {x y : ℚ} (h : x ≤ y) : pyRound4 x ≤ pyRound4 y := by
  unfold pyRound4
  have h1 : x * 10000 ≤ y * 10000 := by linarith
  have h2 := roundHalfEven_mono h1
  have h2q : ((roundHalfEven (x * 10000) : ℤ) : ℚ) ≤ ((roundHalfEven (y * 10000) : ℤ) : ℚ) := by
    exact_mod_cast h2
  exact (div_le_div_iff_of_pos_right (by norm_num)).mpr h2q

theorem pyRound4_nonneg {q : ℚ} (h : 0 ≤ q) : 0 ≤ pyRound4 q := by
  have h1 := le_roundHalfEven (q * 10000)
  have h2 : (0 : ℤ) ≤ roundHalfEven (q * 10000) := by
    by_contra hcon
    push_neg at hcon
    have : roundHalfEven (q * 10000) ≤ -1 := by omega
    have hq : ((roundHalfEven (q * 10000) : ℤ) : ℚ) ≤ -1 := by exact_mod_cast this
    nlinarith
  unfold pyRound4
  have hq : (0 : ℚ) ≤ ((roundHalfEven (q * 10000) : ℤ) : ℚ) := by exact_mod_cast h2
  positivity

theorem pyRound4_le_one {q : ℚ} (h : q < 1) : pyRound4 q ≤ 1 := by
  have h1 := roundHalfEven_le (q * 10000)
  have h2 : roundHalfEven (q * 10000) ≤ 10000 := by
    by_contra hcon
    push_neg at hcon
    have : (10001 : ℤ) ≤ roundHalfEven (q * 10000) := by omega
    have hq : (10001 : ℚ) ≤ ((roundHalfEven (q * 10000) : ℤ) : ℚ) := by exact_mod_cast this
    nlinarith
  unfold pyRound4
  have hq : ((roundHalfEven (q * 10000) : ℤ) : ℚ) ≤ 10000 := by exact_mod_cast h2
  exact (div_le_one (by norm_num)).mpr hq

-- ## Helper lemmas about the scoring variants

theorem App.one_le_days_eff (d : ℚ) : 1 ≤ App.days_eff d := by
  unfold App.days_eff
  split_ifs with h
  · exact le_refl 1
  · linarith

theorem App.days_eff_mono {d1 d2 : ℚ} (h : d1 ≤ d2) :
    App.days_eff d1 ≤ App.days_eff d2 := by
  unfold App.days_eff
  split_ifs <;> linarith

theorem App.lines_denom_nonneg (l : ℚ) : 0 ≤ App.lines_denom l := by
  unfold App.lines_denom
  split_ifs <;> norm_num

theorem App.numeratorA_nonneg {dt lt l : ℚ} (hdt : 0 ≤ dt) (hlt : 0 ≤ lt)
    (hl : 0 ≤ l) (d : ℚ) : 0 ≤ App.numerator dt lt d l := by
  have h1 := App.one_le_days_eff d
  have h2 : 0 ≤ App.days_eff d * dt := mul_nonneg (by linarith) hdt
  have h3 : 0 ≤ l * lt := mul_nonneg hl hlt
  unfold App.numerator
  linarith

theorem App.denominator_pos {dt ct c : ℚ} (hdt : 0 ≤ dt) (hct : 0 ≤ ct)
    (hc : 0 ≤ c) (d l : ℚ) : 0 < App.denominator dt ct d l c := by
  have h1 := App.one_le_days_eff d
  have h2 : 0 ≤ App.days_eff d * dt * App.lines_denom l :=
    mul_nonneg (mul_nonneg (by linarith) hdt) (App.lines_denom_nonneg l)
  have h3 : 0 ≤ c * ct := mul_nonneg hc hct
  unfold App.denominator
  linarith

theorem Score.numeratorB_nonneg {dt lt d l : ℚ} (hdt : 0 ≤ dt) (hlt : 0 ≤ lt)
    (hd : 0 ≤ d) (hl : 0 ≤ l) : 0 ≤ Score.numerator dt lt d l := by
  unfold Score.numerator
  have h1 : 0 ≤ d * dt := mul_nonneg hd hdt
  have h2 : 0 ≤ l * lt := mul_nonneg hl hlt
  linarith

theorem Score.one_le_extra {ct c : ℚ} (hct : 0 < ct) (hc : 0 ≤ c) :
    1 ≤ c / ct * (1/10) + 1 := by
  have h1 : 0 ≤ c / ct := div_nonneg hc hct.le
  linarith

/-- Monotonicity of `n / (n + e)` in the numerator `n`, the shape of
Variant B's ratio. -/
theorem ratio_mono_num {n1 n2 e : ℚ} (h0 : 0 ≤ n1) (h12 : n1 ≤ n2)
    (he : 0 < e) : n1 / (n1 + e) ≤ n2 / (n2 + e) := by
  rw [div_le_div_iff₀ (by linarith) (by linarith)]
  nlinarith

-- ## Claim theorems

/-- C1 counterexample. The claim that both scoring variants are
monotonically non-decreasing in `days_past` and in `lines_changed` fails
for Variant A at `lines_changed = 1`: with all thresholds `1` and
`comments = 0`, raising `days_past` from `1` to `2` drops the score from
`97` to `96`, and raising `lines_changed` from `0` to `1` (at
`days_past = 1`) drops it from `100` to `97`. -/
theorem scoreA_not_monotone_counterexample :
    ((1 : ℚ) ≤ 2 ∧ App.calculate_score 1 1 1 2 1 0 < App.calculate_score 1 1 1 1 1 0) ∧
    ((0 : ℚ) ≤ 1 ∧ App.calculate_score 1 1 1 1 1 0 < App.calculate_score 1 1 1 1 0 0) := by
  have h1 : App.calculate_score 1 1 1 1 1 0 = 97 := by
    norm_num [App.calculate_score, App.numerator, App.denominator, App.days_eff,
      App.lines_denom, pyTrunc]
  have h2 : App.calculate_score 1 1 1 2 1 0 = 96 := by
    norm_num [App.calculate_score, App.numerator, App.denominator, App.days_eff,
      App.lines_denom, pyTrunc]
  have h3 : App.calculate_score 1 1 1 1 0 0 = 100 := by
    norm_num [App.calculate_score, App.numerator, App.denominator, App.days_eff,
      App.lines_denom, pyTrunc]
  refine ⟨⟨by norm_num, ?_⟩, ⟨by norm_num, ?_⟩⟩
  · rw [h1, h2]; norm_num
  · rw [h1, h3]; norm_num

/-- Variant B's score is monotone in its numerator, comments and thresholds
held fixed. -/
theorem scoreB_mono_of_num_le (dt lt ct : ℚ) {c : ℚ} (hct : 0 < ct)
    (hc : 0 ≤ c) {d1 l1 d2 l2 : ℚ}
    (h0 : 0 ≤ Score.numerator dt lt d1 l1)
    (h12 : Score.numerator dt lt d1 l1 ≤ Score.numerator dt lt d2 l2) :
    Score.calculate_score dt lt ct d1 l1 c ≤ Score.calculate_score dt lt ct d2 l2 c := by
  unfold Score.calculate_score Score.denominator
  apply pyRound4_mono
  have he := Score.one_le_extra hct hc
  exact ratio_mono_num h0 h12 (by linarith)

/-- Variant A's score is monotone when the numerator grows and a positive
denominator shrinks (or stays put). -/
theorem scoreA_le (dt lt ct : ℚ) {d1 l1 d2 l2 c1 c2 : ℚ}
    (hden1 : 0 < App.denominator dt ct d1 l1 c1)
    (hden2 : 0 < App.denominator dt ct d2 l2 c2)
    (hnum1 : 0 ≤ App.numerator dt lt d1 l1)
    (hnum12 : App.numerator dt lt d1 l1 ≤ App.numerator dt lt d2 l2)
    (hden21 : App.denominator dt ct d2 l2 c2 ≤ App.denominator dt ct d1 l1 c1) :
    App.calculate_score dt lt ct d1 l1 c1 ≤ App.calculate_score dt lt ct d2 l2 c2 := by
  unfold App.calculate_score
  rw [if_neg hden1.ne', if_neg hden2.ne']
  apply pyTrunc_mono
  · exact mul_nonneg (div_nonneg hnum1 hden1.le) (by norm_num)
  · have h := div_le_div₀ (hnum1.trans hnum12) hnum12 hden2 hden21
    exact mul_le_mul_of_nonneg_right h (by norm_num)

/-- C1, amended. With all three thresholds strictly positive and
non-negative inputs: Variant B's score is monotonically non-decreasing in
`days_past` and in `lines_changed`; Variant A's score is monotonically
non-decreasing in `days_past` provided the fixed `lines_changed` is not
exactly `1`, and in `lines_changed` provided the larger of the two values
is not exactly `1` (the `lines_changed == 1` denominator factor breaks
monotonicity there, as the counterexample shows). -/
theorem score_monotone_nondecreasing_amended (dt lt ct : ℚ)
    (hdt : 0 < dt) (hlt : 0 < lt) (hct : 0 < ct) :
    (∀ d1 d2 l c, 0 ≤ d1 → d1 ≤ d2 → 0 ≤ l → 0 ≤ c →
      Score.calculate_score dt lt ct d1 l c ≤ Score.calculate_score dt lt ct d2 l c) ∧
    (∀ d l1 l2 c, 0 ≤ d → 0 ≤ l1 → l1 ≤ l2 → 0 ≤ c →
      Score.calculate_score dt lt ct d l1 c ≤ Score.calculate_score dt lt ct d l2 c) ∧
    (∀ d1 d2 l c, 0 ≤ d1 → d1 ≤ d2 → 0 ≤ l → l ≠ 1 → 0 ≤ c →
      App.calculate_score dt lt ct d1 l c ≤ App.calculate_score dt lt ct d2 l c) ∧
    (∀ d l1 l2 c, 0 ≤ d → 0 ≤ l1 → l1 ≤ l2 → l2 ≠ 1 → 0 ≤ c →
      App.calculate_score dt lt ct d l1 c ≤ App.calculate_score dt lt ct d l2 c) := by
  refine ⟨?_, ?_, ?_, ?_⟩
  · intro d1 d2 l c hd1 hd12 hl hc
    apply scoreB_mono_of_num_le dt lt ct hct hc
    · exact Score.numeratorB_nonneg hdt.le hlt.le hd1 hl
    · unfold Score.numerator
      nlinarith
  · intro d l1 l2 c hd hl1 hl12 hc
    apply scoreB_mono_of_num_le dt lt ct hct hc
    · exact Score.numeratorB_nonneg hdt.le hlt.le hd hl1
    · unfold Score.numerator
      nlinarith
  · intro d1 d2 l c hd1 hd12 hl hlne hc
    have hld : App.lines_denom l = 0 := by simp [App.lines_denom, hlne]
    have hden : ∀ dd, App.denominator dt ct dd l c = c * ct + 1 := by
      intro dd
      unfold App.denominator
      rw [hld]
      ring
    apply scoreA_le
    · exact App.denominator_pos hdt.le hct.le hc d1 l
    · exact App.denominator_pos hdt.le hct.le hc d2 l
    · exact App.numeratorA_nonneg hdt.le hlt.le hl d1
    · unfold App.numerator
      have hm := App.days_eff_mono hd12
      nlinarith
    · rw [hden d1, hden d2]
  · intro d l1 l2 c hd hl1 hl12 hl2ne hc
    have hld2 : App.lines_denom l2 = 0 := by simp [App.lines_denom, hl2ne]
    have hnum12 : App.numerator dt lt d l1 ≤ App.numerator dt lt d l2 := by
      unfold App.numerator
      nlinarith
    have hden21 : App.denominator dt ct d l2 c ≤ App.denominator dt ct d l1 c := by
      unfold App.denominator
      rw [hld2]
      have h1 := App.one_le_days_eff d
      have h2 : 0 ≤ App.days_eff d * dt * App.lines_denom l1 :=
        mul_nonneg (mul_nonneg (by linarith) hdt.le) (App.lines_denom_nonneg l1)
      linarith
    apply scoreA_le
    · exact App.denominator_pos hdt.le hct.le hc d l1
    · exact App.denominator_pos hdt.le hct.le hc d l2
    · exact App.numeratorA_nonneg hdt.le hlt.le hl1 d
    · exact hnum12
    · exact hden21

/-- C1 witness: the amended monotonicity theorem applied at thresholds
`(1, 1, 1)` and concrete inputs for each of its four parts. -/
theorem score_monotone_nondecreasing_amended_witness :
    (Score.calculate_score 1 1 1 2 5 3 ≤ Score.calculate_score 1 1 1 4 5 3) ∧
    (Score.calculate_score 1 1 1 2 5 3 ≤ Score.calculate_score 1 1 1 2 7 3) ∧
    (App.calculate_score 1 1 1 2 5 3 ≤ App.calculate_score 1 1 1 4 5 3) ∧
    (App.calculate_score 1 1 1 2 0 3 ≤ App.calculate_score 1 1 1 2 5 3) :=
  have h := score_monotone_nondecreasing_amended 1 1 1 (by norm_num) (by norm_num) (by norm_num)
  ⟨h.1 2 4 5 3 (by norm_num) (by norm_num) (by norm_num) (by norm_num),
   h.2.1 2 5 7 3 (by norm_num) (by norm_num) (by norm_num) (by norm_num),
   h.2.2.1 2 4 5 3 (by norm_num) (by norm_num) (by norm_num) (by norm_num) (by norm_num),
   h.2.2.2 2 0 5 3 (by norm_num) (by norm_num) (by norm_num) (by norm_num) (by norm_num)⟩

/-- C2 counterexample. Variant B's score is not confined to the open
interval `(0, 1)`: with all thresholds `1`, the inputs
`days_past = lines_changed = comments = 0` give score exactly `0`, and
`days_past = 20000, lines_changed = comments = 0` give score exactly `1`
(the ratio `20000/20001` rounds up to `1.0` at four decimals). -/
theorem scoreB_open_interval_counterexample :
    Score.calculate_score 1 1 1 0 0 0 = 0 ∧ Score.calculate_score 1 1 1 20000 0 0 = 1 := by
  constructor <;>
    norm_num [Score.calculate_score, Score.numerator, Score.denominator, pyRound4, roundHalfEven]

/-- C2, amended. For strictly positive thresholds and non-negative
`days_past`, `lines_changed` and `comments`, Variant B's score lies in the
closed interval `[0, 1]`: the two endpoints are attainable (score `0` when
the numerator is `0`, score `1` by rounding), so the open interval of the
original claim does not hold. -/
theorem scoreB_bounded_closed_interval (dt lt ct d l c : ℚ)
    (hdt : 0 < dt) (hlt : 0 < lt) (hct : 0 < ct)
    (hd : 0 ≤ d) (hl : 0 ≤ l) (hc : 0 ≤ c) :
    0 ≤ Score.calculate_score dt lt ct d l c ∧ Score.calculate_score dt lt ct d l c ≤ 1 := by
  have hnum : 0 ≤ Score.numerator dt lt d l :=
    Score.numeratorB_nonneg hdt.le hlt.le hd hl
  have he := Score.one_le_extra hct hc
  have hden : 0 < Score.denominator dt lt ct d l c := by
    unfold Score.denominator
    linarith
  have hratio0 : 0 ≤ Score.numerator dt lt d l / Score.denominator dt lt ct d l c :=
    div_nonneg hnum hden.le
  have hratio1 : Score.numerator dt lt d l / Score.denominator dt lt ct d l c < 1 := by
    rw [div_lt_one hden]
    unfold Score.denominator
    linarith
  unfold Score.calculate_score
  exact ⟨pyRound4_nonneg hratio0, pyRound4_le_one hratio1⟩

/-- C2 witness: the closed-interval bound at the spec's worked example,
thresholds `(1, 1, 1)` and inputs `(10, 50, 2)` (where the score is
`0.9804`). -/
theorem scoreB_bounded_closed_interval_witness :
    (0 ≤ Score.calculate_score 1 1 1 10 50 2 ∧ Score.calculate_score 1 1 1 10 50 2 ≤ 1) ∧
    Score.calculate_score 1 1 1 10 50 2 = 4902 / 5000 :=
  ⟨scoreB_bounded_closed_interval 1 1 1 10 50 2 (by norm_num) (by norm_num) (by norm_num)
      (by norm_num) (by norm_num) (by norm_num),
   by norm_num [Score.calculate_score, Score.numerator, Score.denominator, pyRound4,
     roundHalfEven]⟩

/-- C3 counterexample. `GitLabClient.days_since` in `src/gitlab_client.py`
has no floor at zero: for a creation timestamp one day after the current
time it returns `-1`, a negative age. -/
theorem days_since_negative_counterexample :
    GitLab.days_since 86400 0 = -1 ∧ GitLab.days_since 86400 0 < 0 := by
  constructor <;> decide

/-- C3, amended. `calculate_days_past` in `src/app.py` never returns a
negative number — it is floored at `0` for every merge request and every
current time — but the cited `GitLabClient.days_since` helper in
`src/gitlab_client.py` is not floored and can return a negative value when
the creation timestamp is after the current time. -/
theorem calculate_days_past_nonneg (mr : MergeRequest) (now : ℤ) :
    0 ≤ App.calculate_days_past mr now := by
  unfold App.calculate_days_past
  exact le_max_right _ _

/-- C4. For both scoring variants, with strictly positive thresholds and
non-negative inputs, the score is monotonically non-increasing in the
comment count, age and size held fixed. -/
theorem score_antitone_in_comments (dt lt ct d l c1 c2 : ℚ)
    (hdt : 0 < dt) (hlt : 0 < lt) (hct : 0 < ct)
    (hd : 0 ≤ d) (hl : 0 ≤ l) (hc1 : 0 ≤ c1) (hc12 : c1 ≤ c2) :
    App.calculate_score dt lt ct d l c2 ≤ App.calculate_score dt lt ct d l c1 ∧
    Score.calculate_score dt lt ct d l c2 ≤ Score.calculate_score dt lt ct d l c1 := by
  constructor
  · apply scoreA_le
    · exact App.denominator_pos hdt.le hct.le (hc1.trans hc12) d l
    · exact App.denominator_pos hdt.le hct.le hc1 d l
    · exact App.numeratorA_nonneg hdt.le hlt.le hl d
    · exact le_refl _
    · unfold App.denominator
      nlinarith
  · unfold Score.calculate_score
    apply pyRound4_mono
    have hnum : 0 ≤ Score.numerator dt lt d l :=
      Score.numeratorB_nonneg hdt.le hlt.le hd hl
    have he1 := Score.one_le_extra hct hc1
    have he12 : c1 / ct * (1/10) + 1 ≤ c2 / ct * (1/10) + 1 := by
      have := (div_le_div_iff_of_pos_right hct).mpr hc12
      linarith
    have hden1 : 0 < Score.denominator dt lt ct d l c1 := by
      unfold Score.denominator
      linarith
    have hden12 : Score.denominator dt lt ct d l c1 ≤ Score.denominator dt lt ct d l c2 := by
      unfold Score.denominator
      linarith
    exact div_le_div₀ hnum (le_refl _) hden1 hden12

/-- C4 witness: both variants at thresholds `(1, 1, 1)`, inputs
`days_past = 5`, `lines_changed = 3`, comments raised from `0` to `2`. -/
theorem score_antitone_in_comments_witness :
    App.calculate_score 1 1 1 5 3 2 ≤ App.calculate_score 1 1 1 5 3 0 ∧
    Score.calculate_score 1 1 1 5 3 2 ≤ Score.calculate_score 1 1 1 5 3 0 :=
  score_antitone_in_comments 1 1 1 5 3 0 2 (by norm_num) (by norm_num) (by norm_num)
    (by norm_num) (by norm_num) (by norm_num) (by norm_num)

/-- C5. With strictly positive thresholds and non-negative inputs, both
variants' denominators are strictly positive; consequently Variant A's
zero-denominator branch is not taken (the score is the division result,
not the guard's `0`) and Variant B's unguarded division is by a nonzero
number. -/
theorem score_denominator_pos (dt lt ct d l c : ℚ)
    (hdt : 0 < dt) (hlt : 0 < lt) (hct : 0 < ct)
    (hd : 0 ≤ d) (hl : 0 ≤ l) (hc : 0 ≤ c) :
    0 < App.denominator dt ct d l c ∧
    0 < Score.denominator dt lt ct d l c ∧
    App.calculate_score dt lt ct d l c =
      pyTrunc (App.numerator dt lt d l / App.denominator dt ct d l c * 100) := by
  have hA : 0 < App.denominator dt ct d l c := App.denominator_pos hdt.le hct.le hc d l
  have hnum : 0 ≤ Score.numerator dt lt d l :=
    Score.numeratorB_nonneg hdt.le hlt.le hd hl
  have he := Score.one_le_extra hct hc
  have hB : 0 < Score.denominator dt lt ct d l c := by
    unfold Score.denominator
    linarith
  refine ⟨hA, hB, ?_⟩
  unfold App.calculate_score
  rw [if_neg hA.ne']

/-- C5 witness: both denominators evaluated at thresholds `(1, 1, 1)` and
inputs `(5, 3, 2)`, with the division actually taken by Variant A. -/
theorem score_denominator_pos_witness :
    (0 < App.denominator 1 1 5 3 2 ∧
     0 < Score.denominator 1 1 1 5 3 2 ∧
     App.calculate_score 1 1 1 5 3 2 =
       pyTrunc (App.numerator 1 1 5 3 / App.denominator 1 1 5 3 2 * 100)) ∧
    App.denominator 1 1 5 3 2 = 3 :=
  ⟨score_denominator_pos 1 1 1 5 3 2 (by norm_num) (by norm_num) (by norm_num)
      (by norm_num) (by norm_num) (by norm_num),
   by norm_num [App.denominator, App.days_eff, App.lines_denom]⟩

/-- C6. For a merge request whose state is not `"opened"` and whose merge
timestamp is present, `calculate_days_past` returns the whole-day
difference from creation to merge, floored at `0`, and the result is the
same for every current time. -/
theorem calculate_days_past_merged (mr : MergeRequest) (now now2 m : ℤ)
    (hs : mr.state ≠ "opened") (hm : mr.merged_at = some m) :
    App.calculate_days_past mr now = max (Int.fdiv (m - mr.created_at) 86400) 0 ∧
    App.calculate_days_past mr now = App.calculate_days_past mr now2 := by
  unfold App.calculate_days_past
  simp [hs, hm]

/-- C6 witness: a merge request created at instant `0`, merged at instant
`172800` (two days later), in state `"merged"`; its age is `2` days under
two different current times. -/
theorem calculate_days_past_merged_witness :
    ((⟨0, "merged", some 172800, none, [], []⟩ : MergeRequest).state ≠ "opened") ∧
    App.calculate_days_past ⟨0, "merged", some 172800, none, [], []⟩ 999
      = max (Int.fdiv (172800 - (⟨0, "merged", some 172800, none, [], []⟩ : MergeRequest).created_at) 86400) 0 ∧
    App.calculate_days_past ⟨0, "merged", some 172800, none, [], []⟩ 999
      = App.calculate_days_past ⟨0, "merged", some 172800, none, [], []⟩ 123456789 ∧
    App.calculate_days_past ⟨0, "merged", some 172800, none, [], []⟩ 999 = 2 :=
  ⟨by decide,
   (calculate_days_past_merged _ 999 123456789 172800 (by decide) rfl).1,
   (calculate_days_past_merged _ 999 123456789 172800 (by decide) rfl).2,
   by decide⟩

theorem foldl_append_flatten {α : Type} (fetch : String → List α)
    (states : List String) (init : List α) :
    states.foldl (fun acc s => acc ++ fetch s) init = init ++ (states.map fetch).flatten := by
  induction states generalizing init with
  | nil => simp
  | cons h t ih => simp [ih, List.append_assoc]

theorem flatten_count {α : Type} [DecidableEq α] (L : List (List α)) (x : α) :
    L.flatten.count x = (L.map (List.count x)).sum := by
  induction L with
  | nil => simp
  | cons h t ih => simp [List.count_append, ih]

/-- C7. `get_merge_requests` returns exactly the concatenation, in the
order the states were given, of the per-state lists returned by the
underlying call, with no deduplication: each element's multiplicity in the
output is the sum of its multiplicities across the per-state results. -/
theorem get_merge_requests_concat {α : Type} [DecidableEq α]
    (fetch : String → List α) (states : List String) :
    GitLab.get_merge_requests fetch states = (states.map fetch).flatten ∧
    ∀ x : α, (GitLab.get_merge_requests fetch states).count x
      = ((states.map fetch).map (List.count x)).sum := by
  have h : GitLab.get_merge_requests fetch states = (states.map fetch).flatten := by
    unfold GitLab.get_merge_requests
    simpa using foldl_append_flatten fetch states []
  exact ⟨h, fun x => by rw [h, flatten_count]⟩

/-- C7 witness: two states whose per-state results share the element `20`;
the output is the plain concatenation and `20` appears twice. -/
theorem get_merge_requests_concat_witness :
    GitLab.get_merge_requests (fun s => if s = "opened" then [10, 20] else [20, 30])
        ["opened", "closed"]
      = ((["opened", "closed"].map (fun s => if s = "opened" then [10, 20] else [20, 30])).flatten) ∧
    GitLab.get_merge_requests (fun s => if s = "opened" then [10, 20] else [20, 30])
        ["opened", "closed"] = [10, 20, 20, 30] ∧
    (GitLab.get_merge_requests (fun s => if s = "opened" then [10, 20] else [20, 30])
        ["opened", "closed"]).count 20 = 2 :=
  ⟨(get_merge_requests_concat (fun s => if s = "opened" then [10, 20] else [20, 30])
      ["opened", "closed"]).1,
   by decide, by decide⟩

/-- C8. Title truncation: a title of at most `40` characters is emitted
unchanged; a longer title is emitted as exactly its first `40` characters
followed by the `"..."` ellipsis marker. -/
theorem title_truncation (t : List Char) :
    (t.length ≤ 40 → App.truncateTitle t = t) ∧
    (40 < t.length →
      App.truncateTitle t = t.take 40 ++ ['.', '.', '.'] ∧ (t.take 40).length = 40) := by
  constructor
  · intro h
    unfold App.truncateTitle
    rw [if_neg (by omega)]
  · intro h
    unfold App.truncateTitle
    rw [if_pos (by omega)]
    refine ⟨rfl, ?_⟩
    simp only [List.length_take]
    omega

/-- C8 witness: a `41`-character title is truncated to its first `40`
characters plus the marker; a `40`-character title is unchanged. -/
theorem title_truncation_witness :
    40 < (List.replicate 41 'a').length ∧
    App.truncateTitle (List.replicate 41 'a') = (List.replicate 41 'a').take 40 ++ ['.', '.', '.'] ∧
    ((List.replicate 41 'a').take 40).length = 40 ∧
    (List.replicate 40 'b').length ≤ 40 ∧
    App.truncateTitle (List.replicate 40 'b') = List.replicate 40 'b' :=
  ⟨by decide,
   ((title_truncation (List.replicate 41 'a')).2 (by decide)).1,
   ((title_truncation (List.replicate 41 'a')).2 (by decide)).2,
   by decide,
   (title_truncation (List.replicate 40 'b')).1 (by decide)⟩

/-- C9 counterexample. A merge request with the non-empty assignees list
`[""]` (one assignee whose display name is empty) does not get the joined
name string as its Assignee field: the join is `""`, but the emitted field
is the `"-"` fallback. -/
theorem assignee_join_counterexample :
    ([""] : List String) ≠ [] ∧
    App.joinedNames [""] = "" ∧
    App.assigneeField [""] = "-" ∧
    App.assigneeField [""] ≠ App.joinedNames [""] := by
  refine ⟨by decide, by decide, by decide, by decide⟩

/-- C9, amended. For a non-empty assignees list the State field is
`"Assigned"` and the Assignee field is the names joined by `", "` unless
that joined string is empty, in which case it is `"-"`; for an empty
assignees list the State field is `"Unassigned"` and the Assignee field is
`"-"`. -/
theorem assignee_rendering_amended (names : List String) :
    (names ≠ [] →
      App.stateField names = "Assigned" ∧
      (App.joinedNames names ≠ "" → App.assigneeField names = App.joinedNames names) ∧
      (App.joinedNames names = "" → App.assigneeField names = "-")) ∧
    (names = [] →
      App.stateField names = "Unassigned" ∧ App.assigneeField names = "-") := by
  constructor
  · intro h
    refine ⟨by simp [App.stateField, h], fun hj => ?_, fun hj => ?_⟩
    · unfold App.assigneeField
      rw [if_neg hj]
    · unfold App.assigneeField
      rw [if_pos hj]
  · intro h
    subst h
    exact ⟨by decide, by decide⟩

/-- C9 witness: assignees named `"Alice"` and `"Bob"` yield Assignee
`"Alice, Bob"` and State `"Assigned"`. -/
theorem assignee_rendering_amended_witness :
    (["Alice", "Bob"] : List String) ≠ [] ∧
    App.stateField ["Alice", "Bob"] = "Assigned" ∧
    App.assigneeField ["Alice", "Bob"] = App.joinedNames ["Alice", "Bob"] ∧
    App.joinedNames ["Alice", "Bob"] = "Alice, Bob" :=
  ⟨by decide,
   ((assignee_rendering_amended ["Alice", "Bob"]).1 (by decide)).1,
   ((assignee_rendering_amended ["Alice", "Bob"]).1 (by decide)).2.1 (by decide),
   by decide⟩

/-- C10. The Assignee value `"-"` does not imply State `"Unassigned"`:
a merge request with a non-empty assignees list whose every display name
is empty is rendered with Assignee `"-"` and State `"Assigned"`. -/
theorem assignee_dash_with_assigned_state :
    ∃ names : List String, names ≠ [] ∧ (∀ n ∈ names, n = "") ∧
      App.assigneeField names = "-" ∧ App.stateField names = "Assigned" :=
  ⟨[""], by decide, by decide, by decide, by decide⟩
